import Mathlib

/-!
Shallow embedding of the legal-sandbox API backend.

The source is a small HTTP backend: an in-memory document store keyed by
integer ids (`services/api/app/api/v1/documents_mem.py`), pydantic input
schemas (`services/api/app/models/schemas.py`), and two stub endpoints for
segmentation and analysis (`services/api/app/api/v1/routes.py`).

Modelling choices:
- Python strings become `List Char`; `len` becomes `List.length`.
- The wall clock (`datetime.now(timezone.utc)`) becomes a `Nat` timestamp.
  Each call of `_now()` in the source is a separate clock read, so each
  operation takes the values those reads return as explicit parameters,
  constrained to be monotone (`clock ≤ t1 ≤ t2`).  The store state records
  the last returned clock value to express monotonicity across operations.
- The Python dict `_STORE` becomes an insertion-ordered association list
  `List (Nat × Doc)`; `d[k] = v` is `dictSet` (replace in place if the key
  is present, append otherwise, exactly the CPython semantics), `del d[k]`
  is a filter, `d.get(k)` is `dictGet`.
- Floats (the analyze threshold) become `ℚ`; the behaviour of the stub does not
  depend on rounding, so this is faithful for the claims at hand.
- HTTP error signalling (`HTTPException`, pydantic 422) becomes `Except Nat`
  carrying the status code.
-/

namespace LegalSandbox

/-- Characters as Python strings; titles and texts are character lists. -/
abbrev Str := List Char

/-- `DocumentCreate` from `schemas.py`: required `title` and `text`.
The pydantic field constraints (`title` length in [3,200], `text`
non-empty) are enforced at the boundary by `validate_DocumentCreate`. -/
structure DocumentCreate where
  title : Str
  text : Str
deriving Repr, DecidableEq

/-- `DocumentUpdate` from `schemas.py`: both fields optional. -/
structure DocumentUpdate where
  title : Option Str
  text : Option Str
deriving Repr, DecidableEq

/-- A stored document, the value type of `_STORE` in `documents_mem.py`
(`DocumentOut` in `schemas.py`): id, title, text and the two timestamps. -/
structure Doc where
  id : Nat
  title : Str
  text : Str
  created_at : Nat
  updated_at : Nat
deriving Repr, DecidableEq

/-- The module-level mutable state of `documents_mem.py`: the dict
`_STORE`, the counter `_NEXT_ID`, plus the last value returned by the
clock (for the monotonicity of `_now()` across calls). -/
structure StoreState where
  store : List (Nat × Doc)
  next_id : Nat
  clock : Nat
deriving Repr, DecidableEq

/-- The state at process start: `_STORE = {}`, `_NEXT_ID = 1`. -/
def initState : StoreState := ⟨[], 1, 0⟩

/-- Python `d.get(k)` on an insertion-ordered dict. -/
def dictGet (l : List (Nat × Doc)) (k : Nat) : Option Doc :=
  (l.find? (fun p => p.1 == k)).map Prod.snd

/-- Python `d[k] = v` on an insertion-ordered dict: replace in place when
the key is present, append otherwise. -/
def dictSet (l : List (Nat × Doc)) (k : Nat) (v : Doc) : List (Nat × Doc) :=
  if l.any (fun p => p.1 == k) then
    l.map (fun p => if p.1 == k then (k, v) else p)
  else
    l ++ [(k, v)]

/-- `create_document` from `documents_mem.py`.  `t1` and `t2` are the
values returned by the two `_now()` calls (for `created_at` and
`updated_at` respectively).  Returns the created document and the new
state; the clock of the state becomes the last read `t2`. -/
def create_document (s : StoreState) (payload : DocumentCreate)
    (t1 t2 : Nat) : Doc × StoreState :=
  let doc_id := s.next_id
  let item : Doc := ⟨doc_id, payload.title, payload.text, t1, t2⟩
  (item, ⟨dictSet s.store doc_id item, s.next_id + 1, t2⟩)

/-- `list_documents` from `documents_mem.py`: `list(_STORE.values())`. -/
def list_documents (s : StoreState) : List Doc :=
  s.store.map Prod.snd

/-- `get_document` from `documents_mem.py`: 404 when the id is absent,
otherwise the stored document.  No state change. -/
def get_document (s : StoreState) (doc_id : Nat) : Except Nat Doc :=
  match dictGet s.store doc_id with
  | none => .error 404
  | some item => .ok item

/-- `update_document` from `documents_mem.py`.  `t` is the value returned
by the `_now()` call that refreshes `updated_at`; on the 404 path no clock
read happens and the state is unchanged. -/
def update_document (s : StoreState) (doc_id : Nat)
    (payload : DocumentUpdate) (t : Nat) : Except Nat Doc × StoreState :=
  match dictGet s.store doc_id with
  | none => (.error 404, s)
  | some item =>
    let item1 := match payload.title with
      | none => item
      | some ti => { item with title := ti }
    let item2 := match payload.text with
      | none => item1
      | some tx => { item1 with text := tx }
    let item3 := { item2 with updated_at := t }
    (.ok item3, ⟨dictSet s.store doc_id item3, s.next_id, t⟩)

/-- `delete_document` from `documents_mem.py`: 404 when the id is absent,
otherwise remove the entry (`del _STORE[doc_id]`). -/
def delete_document (s : StoreState) (doc_id : Nat) :
    Except Nat Unit × StoreState :=
  if s.store.any (fun p => p.1 == doc_id) then
    (.ok (), { s with store := s.store.filter (fun p => !(p.1 == doc_id)) })
  else
    (.error 404, s)

/-- Boundary validation of `DocumentCreate` (pydantic `Field` constraints
in `schemas.py`): `title` length in [3,200], `text` non-empty; a violation
is a 422 validation error. -/
def validate_DocumentCreate (title text : Str) : Except Nat DocumentCreate :=
  if 3 ≤ title.length ∧ title.length ≤ 200 ∧ 1 ≤ text.length then
    .ok ⟨title, text⟩
  else
    .error 422

/-- The POST /documents endpoint: boundary validation, then the store
operation.  A validation failure never reaches the store. -/
def api_create (s : StoreState) (title text : Str) (t1 t2 : Nat) :
    Except Nat Doc × StoreState :=
  match validate_DocumentCreate title text with
  | .error e => (.error e, s)
  | .ok payload =>
    let r := create_document s payload t1 t2
    (.ok r.1, r.2)

/-- One state transition of the store, as triggered by the five endpoint
handlers in `documents_mem.py`.  Clock reads inside an operation are
monotone and at least the last value any earlier operation read. -/
inductive Step : StoreState → StoreState → Prop
  | create (s : StoreState) (payload : DocumentCreate) (t1 t2 : Nat)
      (h1 : s.clock ≤ t1) (h2 : t1 ≤ t2) :
      Step s (create_document s payload t1 t2).2
  | update (s : StoreState) (doc_id : Nat) (payload : DocumentUpdate)
      (t : Nat) (h : s.clock ≤ t) :
      Step s (update_document s doc_id payload t).2
  | delete (s : StoreState) (doc_id : Nat) :
      Step s (delete_document s doc_id).2
  | get (s : StoreState) (doc_id : Nat) : Step s s
  | listDocs (s : StoreState) : Step s s

/-- States reachable from process start by any sequence of operations. -/
inductive Reachable : StoreState → Prop
  | init : Reachable initState
  | step {s s' : StoreState} : Reachable s → Step s s' → Reachable s'

/-- One operation of a recorded trace, with the clock values its `_now()`
calls return. -/
inductive Op
  | create (payload : DocumentCreate) (t1 t2 : Nat)
  | update (doc_id : Nat) (payload : DocumentUpdate) (t : Nat)
  | delete (doc_id : Nat)
  | get (doc_id : Nat)
  | listDocs
deriving Repr

/-- The state after one trace operation. -/
def applyOp (s : StoreState) : Op → StoreState
  | .create payload t1 t2 => (create_document s payload t1 t2).2
  | .update doc_id payload t => (update_document s doc_id payload t).2
  | .delete doc_id => (delete_document s doc_id).2
  | .get _ => s
  | .listDocs => s

/-- The state after a whole trace. -/
def execTrace (s : StoreState) : List Op → StoreState
  | [] => s
  | op :: ops => execTrace (applyOp s op) ops

/-- The ids handed out by the create operations of a trace, in order. -/
def createdIds (s : StoreState) : List Op → List Nat
  | [] => []
  | .create payload t1 t2 :: ops =>
    (create_document s payload t1 t2).1.id
      :: createdIds (create_document s payload t1 t2).2 ops
  | op :: ops => createdIds (applyOp s op) ops

/-- The number of create operations in a trace. -/
def createCount : List Op → Nat
  | [] => 0
  | .create _ _ _ :: ops => createCount ops + 1
  | _ :: ops => createCount ops

/-- Python whitespace for `str.strip()`, restricted to the ASCII range:
space, tab, newline, carriage return, vertical tab, form feed. -/
def isPySpace (c : Char) : Bool :=
  c == ' ' || c == '\t' || c == '\n' || c == '\r' || c == '\x0b' || c == '\x0c'

/-- Python `str.strip()`: drop leading and trailing whitespace. -/
def pyStrip (l : Str) : Str :=
  ((l.dropWhile isPySpace).reverse.dropWhile isPySpace).reverse

/-- Python `str.split("\n\n")`: split on non-overlapping occurrences of
two consecutive newlines, scanning left to right. -/
def splitNlNl : Str → List Str
  | [] => [[]]
  | [c] => [[c]]
  | c1 :: c2 :: rest =>
    if c1 = '\n' ∧ c2 = '\n' then
      [] :: splitNlNl rest
    else
      match splitNlNl (c2 :: rest) with
      | [] => [[c1]]
      | h :: t => (c1 :: h) :: t

/-- A clause as produced by the segmentation endpoint (`Clause` in
`routes.py`): 1-based index, text, optional header (never set). -/
structure Clause where
  index : Nat
  text : Str
  header : Option Str
deriving Repr, DecidableEq

/-- The `segment` endpoint from `routes.py`: split on blank lines, strip
each piece, drop empty pieces, number from 1; if nothing survives, fall
back to the whole stripped text as one clause (or no clause at all when
the stripped text is empty). -/
def segment (text : Str) : List Clause :=
  let parts := ((splitNlNl text).map pyStrip).filter (fun p => !p.isEmpty)
  let clauses := parts.enum.map (fun ip => ⟨ip.1 + 1, ip.2, none⟩)
  if clauses.isEmpty then
    if (pyStrip text).isEmpty then [] else [⟨1, pyStrip text, none⟩]
  else
    clauses

/-- Severity levels of a finding (`Severity` in `routes.py`). -/
inductive Severity
  | low
  | medium
  | high
deriving Repr, DecidableEq

/-- Conflict signal categories (the `signal` literal in `routes.py`). -/
inductive ConflictSignal
  | negation
  | numbers
  | modal
  | policy
  | other
deriving Repr, DecidableEq

/-- The `Finding` tagged union from `routes.py`: a duplicate finding
(clause indices, similarity score, severity, reason, resolved flag) or a
conflict finding (a pair of clause indices, signal, severity, reason,
resolved flag). -/
inductive Finding
  | duplicate (id : Str) (items : List Nat) (similarity : ℚ)
      (severity : Severity) (reason : Str) (resolved : Bool)
  | conflict (id : Str) (a b : Nat) (signal : ConflictSignal)
      (severity : Severity) (reason : Str) (resolved : Bool)
deriving Repr, DecidableEq

/-- `AnalyzeRequest` from `routes.py`: clauses plus a duplicate-similarity
threshold.  The pydantic constraint (`ge=0.6`, `le=0.98`, default `0.85`)
is enforced at the boundary by `validate_AnalyzeRequest`. -/
structure AnalyzeRequest where
  clauses : List Clause
  dup_threshold : ℚ
deriving Repr, DecidableEq

/-- `AnalyzeResponse` from `routes.py`. -/
structure AnalyzeResponse where
  findings : List Finding
deriving Repr, DecidableEq

/-- The `analyze` endpoint body from `routes.py`: a stub that returns an
empty findings list whatever the request holds. -/
def analyze (_req : AnalyzeRequest) : AnalyzeResponse :=
  ⟨[]⟩

/-- Boundary validation of `AnalyzeRequest` (pydantic `Field` in
`routes.py`): an omitted threshold defaults to 0.85; a supplied threshold
outside [0.6, 0.98] is a 422 validation error. -/
def validate_AnalyzeRequest (clauses : List Clause) (thr : Option ℚ) :
    Except Nat AnalyzeRequest :=
  let v := thr.getD (mkRat 85 100)
  if mkRat 6 10 ≤ v ∧ v ≤ mkRat 98 100 then .ok ⟨clauses, v⟩ else .error 422

/-- The POST /analyze endpoint: boundary validation, then the stub.  A
validation failure never reaches the stub. -/
def api_analyze (clauses : List Clause) (thr : Option ℚ) :
    Except Nat AnalyzeResponse :=
  match validate_AnalyzeRequest clauses thr with
  | .error e => .error e
  | .ok req => .ok (analyze req)

/-- The inductive invariant of the in-memory store: ids are pairwise
distinct keys, for every document `created_at` is at most its `updated_at`,
no timestamp exceeds the last clock read, and every key is below the
`_NEXT_ID` counter. -/
def Inv (s : StoreState) : Prop :=
  (s.store.map Prod.fst).Nodup ∧
  ∀ p ∈ s.store,
    p.2.created_at ≤ p.2.updated_at ∧
    p.2.updated_at ≤ s.clock ∧
    p.1 < s.next_id

/-- A sample creation payload used to exhibit concrete executions. -/
def sampleCreate : DocumentCreate := ⟨['a', 'b', 'c'], ['x']⟩

/-- The state after creating one document at time 0 from the initial
state. -/
def sampleState : StoreState := (create_document initState sampleCreate 0 0).2

/-- The document living in `sampleState`. -/
def sampleDoc : Doc := ⟨1, ['a', 'b', 'c'], ['x'], 0, 0⟩

/-! ### Association-list dictionary lemmas -/

theorem dictGet_nil (k : Nat) : dictGet [] k = none := rfl

theorem dictGet_cons (p : Nat × Doc) (l : List (Nat × Doc)) (k : Nat) :
    dictGet (p :: l) k = if p.1 = k then some p.2 else dictGet l k := by
  by_cases h : p.1 = k <;> simp [dictGet, List.find?_cons, h]

theorem dictGet_eq_none_iff (l : List (Nat × Doc)) (k : Nat) :
    dictGet l k = none ↔ ∀ p ∈ l, p.1 ≠ k := by
  simp [dictGet, List.find?_eq_none]

theorem dictGet_mem {l : List (Nat × Doc)} {k : Nat} {d : Doc}
    (h : dictGet l k = some d) : (k, d) ∈ l := by
  induction l with
  | nil => simp [dictGet] at h
  | cons p l ih =>
    rw [dictGet_cons] at h
    by_cases hp : p.1 = k
    · simp [hp] at h
      subst h
      have : (k, p.2) = p := by
        rw [← hp]
      rw [this]
      exact List.mem_cons_self p l
    · simp [hp] at h
      right
      exact ih h

theorem dictSet_of_fresh {l : List (Nat × Doc)} {k : Nat} (v : Doc)
    (h : ∀ p ∈ l, p.1 ≠ k) : dictSet l k v = l ++ [(k, v)] := by
  have : l.any (fun p => p.1 == k) = false := by
    simp [List.any_eq_false]
    intro a b hab
    exact h (a, b) hab
  simp [dictSet, this]

theorem dictGet_mapReplace_self (l : List (Nat × Doc)) (k : Nat) (v : Doc)
    (h : ∃ p ∈ l, p.1 = k) :
    dictGet (l.map (fun p => if p.1 = k then (k, v) else p)) k = some v := by
  induction l with
  | nil => simp at h
  | cons p l ih =>
    by_cases hp : p.1 = k
    · simp only [List.map_cons, hp, if_pos]
      rw [dictGet_cons]
      simp
    · simp only [List.map_cons, hp, if_neg, not_false_iff]
      rw [dictGet_cons]
      simp only [hp, if_false]
      apply ih
      rcases h with ⟨q, hq, hqk⟩
      rcases List.mem_cons.mp hq with hq1 | hq2
      · exact absurd (hq1 ▸ hqk) hp
      · exact ⟨q, hq2, hqk⟩

theorem dictGet_mapReplace_ne (l : List (Nat × Doc)) (k : Nat) (v : Doc)
    {j : Nat} (hj : j ≠ k) :
    dictGet (l.map (fun p => if p.1 = k then (k, v) else p)) j =
      dictGet l j := by
  induction l with
  | nil => rfl
  | cons p l ih =>
    by_cases hp : p.1 = k
    · simp only [List.map_cons, hp, if_pos]
      rw [dictGet_cons, dictGet_cons]
      have h1 : ¬ ((k, v).1 = j) := fun hh => hj (hh.symm)
      have h2 : ¬ (p.1 = j) := by
        rw [hp]
        exact fun hh => hj hh.symm
      simp only [h1, h2, if_false]
      exact ih
    · simp only [List.map_cons, hp, if_neg, not_false_iff]
      rw [dictGet_cons, dictGet_cons]
      by_cases hpj : p.1 = j
      · simp [hpj]
      · simp only [hpj, if_false]
        exact ih

theorem dictGet_append_ne (l : List (Nat × Doc)) (k : Nat) (v : Doc)
    {j : Nat} (hj : j ≠ k) : dictGet (l ++ [(k, v)]) j = dictGet l j := by
  induction l with
  | nil =>
    simp only [List.nil_append]
    rw [dictGet_cons]
    have : ¬ ((k, v).1 = j) := fun hh => hj hh.symm
    simp [this, dictGet_nil]
  | cons p l ih =>
    rw [List.cons_append, dictGet_cons, dictGet_cons]
    by_cases hpj : p.1 = j
    · simp [hpj]
    · simp only [hpj, if_false]
      exact ih

theorem dictGet_append_self (l : List (Nat × Doc)) (k : Nat) (v : Doc)
    (h : ∀ p ∈ l, p.1 ≠ k) : dictGet (l ++ [(k, v)]) k = some v := by
  induction l with
  | nil =>
    simp only [List.nil_append]
    rw [dictGet_cons]
    simp
  | cons p l ih =>
    rw [List.cons_append, dictGet_cons]
    have hp : ¬ (p.1 = k) := h p (List.mem_cons_self p l)
    simp only [hp, if_false]
    exact ih (fun q hq => h q (List.mem_cons_of_mem p hq))

theorem dictSet_pos (l : List (Nat × Doc)) (k : Nat) (v : Doc)
    (h : l.any (fun p => p.1 == k) = true) :
    dictSet l k v = l.map (fun p => if p.1 = k then (k, v) else p) := by
  simp only [dictSet, h, if_pos]
  apply List.map_congr_left
  intro p _
  by_cases hp : p.1 = k <;> simp [hp]

theorem dictSet_neg (l : List (Nat × Doc)) (k : Nat) (v : Doc)
    (h : ¬ l.any (fun p => p.1 == k) = true) :
    dictSet l k v = l ++ [(k, v)] := by
  simp only [dictSet]
  rw [if_neg h]

theorem any_key_iff (l : List (Nat × Doc)) (k : Nat) :
    l.any (fun p => p.1 == k) = true ↔ ∃ p ∈ l, p.1 = k := by
  simp [List.any_eq_true]

theorem dictGet_dictSet_self (l : List (Nat × Doc)) (k : Nat) (v : Doc) :
    dictGet (dictSet l k v) k = some v := by
  by_cases h : l.any (fun p => p.1 == k) = true
  · rw [dictSet_pos l k v h]
    exact dictGet_mapReplace_self l k v ((any_key_iff l k).mp h)
  · rw [dictSet_neg l k v h]
    apply dictGet_append_self
    intro p hp hk
    exact h ((any_key_iff l k).mpr ⟨p, hp, hk⟩)

theorem dictGet_dictSet_ne (l : List (Nat × Doc)) (k : Nat) (v : Doc)
    {j : Nat} (hj : j ≠ k) : dictGet (dictSet l k v) j = dictGet l j := by
  by_cases h : l.any (fun p => p.1 == k) = true
  · rw [dictSet_pos l k v h]
    exact dictGet_mapReplace_ne l k v hj
  · rw [dictSet_neg l k v h]
    exact dictGet_append_ne l k v hj

theorem mapReplace_map_fst (l : List (Nat × Doc)) (k : Nat) (v : Doc) :
    (l.map (fun p => if p.1 = k then (k, v) else p)).map Prod.fst =
      l.map Prod.fst := by
  rw [List.map_map]
  apply List.map_congr_left
  intro p _
  by_cases hp : p.1 = k <;> simp [hp]

theorem dictGet_filter_self (l : List (Nat × Doc)) (k : Nat) :
    dictGet (l.filter (fun p => !(p.1 == k))) k = none := by
  rw [dictGet_eq_none_iff]
  intro p hp
  have := List.of_mem_filter hp
  simpa using this

theorem dictGet_filter_ne (l : List (Nat × Doc)) (k : Nat) {j : Nat}
    (hj : j ≠ k) :
    dictGet (l.filter (fun p => !(p.1 == k))) j = dictGet l j := by
  induction l with
  | nil => rfl
  | cons p l ih =>
    by_cases hp : p.1 = k
    · have : (!(p.1 == k)) = false := by simp [hp]
      rw [List.filter_cons_of_neg (by simp [this])]
      rw [dictGet_cons]
      have : ¬ (p.1 = j) := by
        rw [hp]
        exact fun hh => hj hh.symm
      simp only [this, if_false]
      exact ih
    · rw [List.filter_cons_of_pos (by simp [hp])]
      rw [dictGet_cons, dictGet_cons]
      by_cases hpj : p.1 = j
      · simp [hpj]
      · simp only [hpj, if_false]
        exact ih

/-! ### Operation-level unfolding lemmas -/

theorem update_document_none (s : StoreState) (doc_id : Nat)
    (payload : DocumentUpdate) (t : Nat)
    (h : dictGet s.store doc_id = none) :
    update_document s doc_id payload t = (.error 404, s) := by
  simp [update_document, h]

theorem update_document_some (s : StoreState) (doc_id : Nat)
    (payload : DocumentUpdate) (t : Nat) {item : Doc}
    (h : dictGet s.store doc_id = some item) :
    ∃ item3 : Doc,
      update_document s doc_id payload t =
        (.ok item3, ⟨dictSet s.store doc_id item3, s.next_id, t⟩) ∧
      item3.id = item.id ∧
      item3.title = payload.title.getD item.title ∧
      item3.text = payload.text.getD item.text ∧
      item3.created_at = item.created_at ∧
      item3.updated_at = t := by
  obtain ⟨ti, tx⟩ := payload
  cases ti with
  | none =>
    cases tx with
    | none =>
      refine ⟨{ item with updated_at := t }, ?_, rfl, rfl, rfl, rfl, rfl⟩
      simp [update_document, h]
    | some tx =>
      refine ⟨{ item with text := tx, updated_at := t },
        ?_, rfl, rfl, rfl, rfl, rfl⟩
      simp [update_document, h]
  | some ti =>
    cases tx with
    | none =>
      refine ⟨{ item with title := ti, updated_at := t },
        ?_, rfl, rfl, rfl, rfl, rfl⟩
      simp [update_document, h]
    | some tx =>
      refine ⟨{ item with title := ti, text := tx, updated_at := t },
        ?_, rfl, rfl, rfl, rfl, rfl⟩
      simp [update_document, h]

theorem delete_document_mem (s : StoreState) (doc_id : Nat)
    (h : s.store.any (fun p => p.1 == doc_id) = true) :
    delete_document s doc_id =
      (.ok (), { s with store := s.store.filter (fun p => !(p.1 == doc_id)) }) := by
  simp [delete_document, h]

theorem delete_document_not_mem (s : StoreState) (doc_id : Nat)
    (h : ¬ s.store.any (fun p => p.1 == doc_id) = true) :
    delete_document s doc_id = (.error 404, s) := by
  rw [delete_document, if_neg h]

theorem dictGet_none_iff_not_any (l : List (Nat × Doc)) (k : Nat) :
    dictGet l k = none ↔ ¬ l.any (fun p => p.1 == k) = true := by
  rw [dictGet_eq_none_iff, any_key_iff]
  constructor
  · rintro h ⟨p, hp, hk⟩
    exact h p hp hk
  · intro h p hp hk
    exact h ⟨p, hp, hk⟩

/-! ### The store invariant -/

theorem inv_init : Inv initState := by
  constructor
  · simp [initState]
  · intro p hp
    simp [initState] at hp

theorem inv_create (s : StoreState) (payload : DocumentCreate)
    (t1 t2 : Nat) (hs : Inv s) (h1 : s.clock ≤ t1) (h2 : t1 ≤ t2) :
    Inv (create_document s payload t1 t2).2 := by
  obtain ⟨hnd, hent⟩ := hs
  have hfresh : ¬ s.store.any (fun p => p.1 == s.next_id) = true := by
    rw [any_key_iff]
    rintro ⟨p, hp, hk⟩
    exact absurd (hk ▸ (hent p hp).2.2) (lt_irrefl s.next_id)
  simp only [create_document]
  rw [dictSet_neg _ _ _ hfresh]
  constructor
  · simp only [List.map_append, List.map_cons, List.map_nil]
    rw [List.nodup_append]
    refine ⟨hnd, List.nodup_singleton _, ?_⟩
    intro a ha hb
    simp only [List.mem_singleton] at hb
    rcases List.mem_map.mp ha with ⟨p, hp, hfst⟩
    exact absurd ((hfst.trans hb) ▸ (hent p hp).2.2) (lt_irrefl s.next_id)
  · intro p hp
    rcases List.mem_append.mp hp with hold | hnew
    · obtain ⟨hcu, huc, hid⟩ := hent p hold
      exact ⟨hcu, le_trans huc (le_trans h1 h2), Nat.lt_succ_of_lt hid⟩
    · simp only [List.mem_singleton] at hnew
      subst hnew
      exact ⟨h2, le_refl _, Nat.lt_succ_self _⟩

theorem inv_update (s : StoreState) (doc_id : Nat)
    (payload : DocumentUpdate) (t : Nat) (hs : Inv s) (ht : s.clock ≤ t) :
    Inv (update_document s doc_id payload t).2 := by
  obtain ⟨hnd, hent⟩ := hs
  cases hget : dictGet s.store doc_id with
  | none =>
    rw [update_document_none s doc_id payload t hget]
    exact ⟨hnd, hent⟩
  | some item =>
    obtain ⟨item3, heq, -, -, -, hc3, hu3⟩ :=
      update_document_some s doc_id payload t hget
    rw [heq]
    have hmem : (doc_id, item) ∈ s.store := dictGet_mem hget
    have hany : s.store.any (fun p => p.1 == doc_id) = true :=
      (any_key_iff _ _).mpr ⟨(doc_id, item), hmem, rfl⟩
    rw [dictSet_pos _ _ _ hany]
    constructor
    · rw [mapReplace_map_fst]
      exact hnd
    · intro q hq
      rcases List.mem_map.mp hq with ⟨p, hp, hfq⟩
      by_cases hpk : p.1 = doc_id
      · simp only [hpk, if_pos] at hfq
        subst hfq
        obtain ⟨hcu, huc, -⟩ := hent (doc_id, item) hmem
        refine ⟨?_, ?_, ?_⟩
        · rw [hc3, hu3]
          exact le_trans hcu (le_trans huc ht)
        · rw [hu3]
        · exact hpk ▸ (hent p hp).2.2
      · simp only [hpk, if_neg, not_false_iff] at hfq
        subst hfq
        obtain ⟨hcu, huc, hid⟩ := hent p hp
        exact ⟨hcu, le_trans huc ht, hid⟩

theorem inv_delete (s : StoreState) (doc_id : Nat) (hs : Inv s) :
    Inv (delete_document s doc_id).2 := by
  obtain ⟨hnd, hent⟩ := hs
  by_cases h : s.store.any (fun p => p.1 == doc_id) = true
  · rw [delete_document_mem s doc_id h]
    constructor
    · exact List.Nodup.sublist
        (List.Sublist.map Prod.fst (List.filter_sublist _)) hnd
    · intro p hp
      exact hent p (List.mem_of_mem_filter hp)
  · rw [delete_document_not_mem s doc_id h]
    exact ⟨hnd, hent⟩

theorem inv_step {s s' : StoreState} (hs : Inv s) (h : Step s s') :
    Inv s' := by
  cases h with
  | create payload t1 t2 h1 h2 => exact inv_create s payload t1 t2 hs h1 h2
  | update doc_id payload t ht => exact inv_update s doc_id payload t hs ht
  | delete doc_id => exact inv_delete s doc_id hs
  | get doc_id => exact hs
  | listDocs => exact hs

theorem inv_reachable {s : StoreState} (h : Reachable s) : Inv s := by
  induction h with
  | init => exact inv_init
  | step _ hstep ih => exact inv_step ih hstep

/-! ### Trace lemmas: evolution of the `_NEXT_ID` counter -/

theorem create_document_id (s : StoreState) (payload : DocumentCreate)
    (t1 t2 : Nat) : (create_document s payload t1 t2).1.id = s.next_id := rfl

theorem create_document_next_id (s : StoreState) (payload : DocumentCreate)
    (t1 t2 : Nat) :
    (create_document s payload t1 t2).2.next_id = s.next_id + 1 := rfl

theorem update_document_next_id (s : StoreState) (doc_id : Nat)
    (payload : DocumentUpdate) (t : Nat) :
    (update_document s doc_id payload t).2.next_id = s.next_id := by
  cases hget : dictGet s.store doc_id with
  | none => rw [update_document_none s doc_id payload t hget]
  | some item =>
    obtain ⟨item3, heq, -⟩ := update_document_some s doc_id payload t hget
    rw [heq]

theorem delete_document_next_id (s : StoreState) (doc_id : Nat) :
    (delete_document s doc_id).2.next_id = s.next_id := by
  by_cases h : s.store.any (fun p => p.1 == doc_id) = true
  · rw [delete_document_mem s doc_id h]
  · rw [delete_document_not_mem s doc_id h]

theorem applyOp_next_id_of_ne_create (s : StoreState) (op : Op)
    (h : ∀ payload t1 t2, op ≠ .create payload t1 t2) :
    (applyOp s op).next_id = s.next_id := by
  cases op with
  | create payload t1 t2 => exact absurd rfl (h payload t1 t2)
  | update doc_id payload t => exact update_document_next_id s doc_id payload t
  | delete doc_id => exact delete_document_next_id s doc_id
  | get doc_id => rfl
  | listDocs => rfl

theorem createdIds_eq_range' (s : StoreState) (ops : List Op) :
    createdIds s ops = List.range' s.next_id (createCount ops) := by
  induction ops generalizing s with
  | nil => rfl
  | cons op ops ih =>
    cases op with
    | create payload t1 t2 =>
      show (create_document s payload t1 t2).1.id
          :: createdIds (create_document s payload t1 t2).2 ops
        = List.range' s.next_id (createCount ops + 1)
      rw [List.range'_succ, create_document_id, ih,
        create_document_next_id]
    | update doc_id payload t =>
      show createdIds (applyOp s (.update doc_id payload t)) ops
        = List.range' s.next_id (createCount ops)
      rw [ih, applyOp_next_id_of_ne_create _ _ (by intro p a b h; cases h)]
    | delete doc_id =>
      show createdIds (applyOp s (.delete doc_id)) ops
        = List.range' s.next_id (createCount ops)
      rw [ih, applyOp_next_id_of_ne_create _ _ (by intro p a b h; cases h)]
    | get doc_id =>
      show createdIds (applyOp s (.get doc_id)) ops
        = List.range' s.next_id (createCount ops)
      rw [ih, applyOp_next_id_of_ne_create _ _ (by intro p a b h; cases h)]
    | listDocs =>
      show createdIds (applyOp s .listDocs) ops
        = List.range' s.next_id (createCount ops)
      rw [ih, applyOp_next_id_of_ne_create _ _ (by intro p a b h; cases h)]

/-! ### Segmentation lemmas -/

theorem pyStrip_eq_nil_iff (l : Str) :
    pyStrip l = [] ↔ ∀ c ∈ l, isPySpace c = true := by
  unfold pyStrip
  rw [List.reverse_eq_nil_iff, List.dropWhile_eq_nil_iff]
  constructor
  · intro h c hc
    have hsplit := List.takeWhile_append_dropWhile isPySpace l
    rcases List.mem_append.mp (hsplit ▸ hc) with htk | hdr
    · exact List.mem_takeWhile_imp htk
    · exact h c (List.mem_reverse.mpr hdr)
  · intro h c hc
    have hsub : (List.dropWhile isPySpace l).Sublist l :=
      List.dropWhile_sublist _
    exact h c (hsub.mem (List.mem_reverse.mp hc))

theorem splitNlNl_ne_nil (l : Str) : splitNlNl l ≠ [] := by
  induction l using splitNlNl.induct with
  | case1 => simp [splitNlNl]
  | case2 c => simp [splitNlNl]
  | case3 c1 c2 rest hc ih =>
    rw [splitNlNl, if_pos hc]
    simp
  | case4 c1 c2 rest hc heq ih =>
    rw [splitNlNl, if_neg hc, heq]
    simp
  | case5 c1 c2 rest hc h t heq ih =>
    rw [splitNlNl, if_neg hc, heq]
    simp

theorem splitNlNl_mem_subset :
    ∀ (l : Str) (p : Str), p ∈ splitNlNl l → ∀ c ∈ p, c ∈ l := by
  intro l
  induction l using splitNlNl.induct with
  | case1 =>
    intro p hp c hc
    simp only [splitNlNl, List.mem_singleton] at hp
    subst hp
    simp at hc
  | case2 c0 =>
    intro p hp c hc
    simp only [splitNlNl, List.mem_singleton] at hp
    subst hp
    simpa using hc
  | case3 c1 c2 rest hc0 ih =>
    intro p hp c hc
    rw [splitNlNl, if_pos hc0] at hp
    rcases List.mem_cons.mp hp with rfl | hp
    · simp at hc
    · exact List.mem_cons_of_mem _ (List.mem_cons_of_mem _ (ih p hp c hc))
  | case4 c1 c2 rest hc0 heq ih =>
    intro p hp c hc
    rw [splitNlNl, if_neg hc0, heq] at hp
    simp only [List.mem_singleton] at hp
    subst hp
    simp only [List.mem_singleton] at hc
    subst hc
    exact List.mem_cons_self _ _
  | case5 c1 c2 rest hc0 h t heq ih =>
    intro p hp c hc
    rw [splitNlNl, if_neg hc0, heq] at hp
    have hh : h ∈ splitNlNl (c2 :: rest) := heq ▸ List.mem_cons_self h t
    rcases List.mem_cons.mp hp with rfl | hp
    · rcases List.mem_cons.mp hc with rfl | hcm
      · exact List.mem_cons_self _ _
      · exact List.mem_cons_of_mem _ (ih h hh c hcm)
    · have hpt : p ∈ splitNlNl (c2 :: rest) := heq ▸ List.mem_cons_of_mem h hp
      exact List.mem_cons_of_mem _ (ih p hpt c hc)

theorem range_map_add_one (n : Nat) :
    (List.range n).map (fun a => a + 1) = List.range' 1 n := by
  simp [List.range'_eq_map_range, Nat.add_comm]

theorem segment_map_index (s : Str) :
    (segment s).map Clause.index = List.range' 1 (segment s).length := by
  simp only [segment]
  by_cases hemp :
      ((((splitNlNl s).map pyStrip).filter (fun p => !p.isEmpty)).enum.map
        (fun ip => (⟨ip.1 + 1, ip.2, none⟩ : Clause))).isEmpty
  · rw [if_pos hemp]
    by_cases hstrip : (pyStrip s).isEmpty
    · rw [if_pos hstrip]
      rfl
    · rw [if_neg hstrip]
      rfl
  · rw [if_neg hemp]
    rw [List.map_map, List.length_map]
    have : (Clause.index ∘ fun ip : Nat × Str => (⟨ip.1 + 1, ip.2, none⟩ : Clause))
        = (fun a => a + 1) ∘ Prod.fst := rfl
    rw [this, ← List.map_map, List.enum_map_fst, range_map_add_one,
      List.enum_length]

theorem parts_eq_nil_of_strip_nil (s : Str) (h : pyStrip s = []) :
    ((splitNlNl s).map pyStrip).filter (fun p => !p.isEmpty) = [] := by
  rw [List.filter_eq_nil_iff]
  intro q hq
  rcases List.mem_map.mp hq with ⟨p, hp, rfl⟩
  have hall : ∀ c ∈ s, isPySpace c = true := (pyStrip_eq_nil_iff s).mp h
  have : pyStrip p = [] := by
    rw [pyStrip_eq_nil_iff]
    intro c hc
    exact hall c (splitNlNl_mem_subset s p hp c hc)
  simp [this]

theorem segment_of_strip_nil (s : Str) (h : pyStrip s = []) :
    segment s = [] := by
  simp only [segment, parts_eq_nil_of_strip_nil s h]
  simp [h]

theorem segment_fallback (s : Str)
    (hparts : ((splitNlNl s).map pyStrip).filter (fun p => !p.isEmpty) = [])
    (h : pyStrip s ≠ []) :
    segment s = [⟨1, pyStrip s, none⟩] := by
  simp only [segment, hparts]
  simp [h]

/-! ### Helper facts about the sample state -/

theorem sampleState_reachable : Reachable sampleState :=
  Reachable.step Reachable.init
    (Step.create initState sampleCreate 0 0 (Nat.le_refl 0) (Nat.le_refl 0))

/-! ### Claims -/

/-- C1 as stated is false on the code: `create_document` reads the clock
twice (`"created_at": _now(), "updated_at": _now()`), so a clock that
advances between the two reads yields `created_at ≠ updated_at` even for
valid input.  Here the reads return 0 and 1. -/
theorem claim_C1_cex :
    ¬ ∀ (s : StoreState) (title text : Str) (t1 t2 : Nat),
        3 ≤ title.length → title.length ≤ 200 → 1 ≤ text.length →
        s.clock ≤ t1 → t1 ≤ t2 →
        api_create s title text t1 t2 =
          (Except.ok (create_document s ⟨title, text⟩ t1 t2).1,
            (create_document s ⟨title, text⟩ t1 t2).2) ∧
        get_document (create_document s ⟨title, text⟩ t1 t2).2
            (create_document s ⟨title, text⟩ t1 t2).1.id =
          Except.ok (create_document s ⟨title, text⟩ t1 t2).1 ∧
        (create_document s ⟨title, text⟩ t1 t2).1.title = title ∧
        (create_document s ⟨title, text⟩ t1 t2).1.text = text ∧
        (create_document s ⟨title, text⟩ t1 t2).1.created_at =
          (create_document s ⟨title, text⟩ t1 t2).1.updated_at := by
  intro h
  have := (h initState ['a', 'b', 'c'] ['x'] 0 1
      (by decide) (by decide) (by decide) (Nat.le_refl 0)
      (Nat.zero_le 1)).2.2.2.2
  exact absurd this (by decide)

/-- C1 (amended): for every valid input (title length in [3,200],
non-empty text) and monotone clock reads `t1 ≤ t2`, create followed by
get of the returned id yields the created document, whose title and text
equal the input and whose `created_at` is at most (rather than equal to)
its `updated_at`. -/
theorem claim_C1_create_then_get (s : StoreState) (title text : Str)
    (t1 t2 : Nat) (h1 : 3 ≤ title.length) (h2 : title.length ≤ 200)
    (h3 : 1 ≤ text.length) (h4 : t1 ≤ t2) :
    api_create s title text t1 t2 =
      (Except.ok (create_document s ⟨title, text⟩ t1 t2).1,
        (create_document s ⟨title, text⟩ t1 t2).2) ∧
    get_document (create_document s ⟨title, text⟩ t1 t2).2
        (create_document s ⟨title, text⟩ t1 t2).1.id =
      Except.ok (create_document s ⟨title, text⟩ t1 t2).1 ∧
    (create_document s ⟨title, text⟩ t1 t2).1.title = title ∧
    (create_document s ⟨title, text⟩ t1 t2).1.text = text ∧
    (create_document s ⟨title, text⟩ t1 t2).1.created_at ≤
      (create_document s ⟨title, text⟩ t1 t2).1.updated_at := by
  have hv : validate_DocumentCreate title text = .ok ⟨title, text⟩ := by
    rw [validate_DocumentCreate, if_pos ⟨h1, h2, h3⟩]
  refine ⟨?_, ?_, rfl, rfl, h4⟩
  · simp [api_create, hv]
  · have hget : dictGet (create_document s ⟨title, text⟩ t1 t2).2.store
        ((create_document s ⟨title, text⟩ t1 t2).1.id)
        = some (create_document s ⟨title, text⟩ t1 t2).1 :=
      dictGet_dictSet_self s.store s.next_id _
    simp [get_document, hget]

/-- Witness for the amended C1 theorem at a concrete valid input. -/
theorem claim_C1_create_then_get_witness :
    (3 ≤ (['a', 'b', 'c'] : Str).length ∧
      (['a', 'b', 'c'] : Str).length ≤ 200 ∧
      1 ≤ (['x'] : Str).length ∧ (5 : Nat) ≤ 6) ∧
    api_create initState ['a', 'b', 'c'] ['x'] 5 6 =
      (Except.ok (create_document initState ⟨['a', 'b', 'c'], ['x']⟩ 5 6).1,
        (create_document initState ⟨['a', 'b', 'c'], ['x']⟩ 5 6).2) ∧
    get_document (create_document initState ⟨['a', 'b', 'c'], ['x']⟩ 5 6).2
        ((create_document initState ⟨['a', 'b', 'c'], ['x']⟩ 5 6).1.id) =
      Except.ok (create_document initState ⟨['a', 'b', 'c'], ['x']⟩ 5 6).1 ∧
    (create_document initState ⟨['a', 'b', 'c'], ['x']⟩ 5 6).1.title =
      ['a', 'b', 'c'] ∧
    (create_document initState ⟨['a', 'b', 'c'], ['x']⟩ 5 6).1.text = ['x'] ∧
    (create_document initState ⟨['a', 'b', 'c'], ['x']⟩ 5 6).1.created_at ≤
      (create_document initState ⟨['a', 'b', 'c'], ['x']⟩ 5 6).1.updated_at :=
  ⟨⟨by decide, by decide, by decide, by decide⟩,
    claim_C1_create_then_get initState ['a', 'b', 'c'] ['x'] 5 6
      (by decide) (by decide) (by decide) (by decide)⟩

/-- C2: in every reachable store state every document satisfies
`created_at ≤ updated_at` and the ids are pairwise-distinct keys (each id
keys exactly one document); moreover one further step of any operation
(create, get, list, update, delete) preserves this invariant. -/
theorem claim_C2_store_invariant {s : StoreState} (h : Reachable s) :
    ((s.store.map Prod.fst).Nodup ∧
      ∀ p ∈ s.store, p.2.created_at ≤ p.2.updated_at) ∧
    ∀ s', Step s s' →
      (s'.store.map Prod.fst).Nodup ∧
      ∀ p ∈ s'.store, p.2.created_at ≤ p.2.updated_at := by
  have hi := inv_reachable h
  refine ⟨⟨hi.1, fun p hp => (hi.2 p hp).1⟩, ?_⟩
  intro s' hstep
  have hi' := inv_step hi hstep
  exact ⟨hi'.1, fun p hp => (hi'.2 p hp).1⟩

/-- Witness for C2 at the concrete reachable state holding one
document. -/
theorem claim_C2_store_invariant_witness :
    (sampleState.store.map Prod.fst).Nodup ∧
    sampleDoc.created_at ≤ sampleDoc.updated_at :=
  ⟨(claim_C2_store_invariant sampleState_reachable).1.1,
    (claim_C2_store_invariant sampleState_reachable).1.2
      (1, sampleDoc) (by decide)⟩

/-- C3: along any operation trace from process start, the ids handed out
by the successive create calls are exactly 1, 2, 3, … (start at 1,
increment by one per create, strictly increasing), independent of any
interleaved updates, deletes, gets or lists — so no id, deleted or not,
is ever handed out twice. -/
theorem claim_C3_created_ids (ops : List Op) :
    createdIds initState ops = List.range' 1 (createCount ops) ∧
    (createdIds initState ops).Pairwise (· < ·) := by
  have h : createdIds initState ops = List.range' 1 (createCount ops) :=
    createdIds_eq_range' initState ops
  refine ⟨h, ?_⟩
  rw [h]
  exact List.pairwise_lt_range' 1 (createCount ops)

/-- C4: for a document present in a reachable store, an update supplying
only `title` leaves `text`, `id` and `created_at` unchanged and sets
`updated_at` to the clock value `t`, which is at least the prior
`updated_at`; an update supplying no fields still refreshes `updated_at`
to `t` on success. -/
theorem claim_C4_update_frame {s : StoreState} (h : Reachable s)
    (doc_id : Nat) {d : Doc} (hd : dictGet s.store doc_id = some d)
    (t : Nat) (ht : s.clock ≤ t) (newTitle : Str) :
    d.updated_at ≤ t ∧
    update_document s doc_id ⟨some newTitle, none⟩ t =
      (Except.ok ({ d with title := newTitle, updated_at := t } : Doc),
        ⟨dictSet s.store doc_id { d with title := newTitle, updated_at := t },
          s.next_id, t⟩) ∧
    ({ d with title := newTitle, updated_at := t } : Doc).text = d.text ∧
    ({ d with title := newTitle, updated_at := t } : Doc).id = d.id ∧
    ({ d with title := newTitle, updated_at := t } : Doc).created_at =
      d.created_at ∧
    update_document s doc_id ⟨none, none⟩ t =
      (Except.ok ({ d with updated_at := t } : Doc),
        ⟨dictSet s.store doc_id { d with updated_at := t },
          s.next_id, t⟩) := by
  have hi := inv_reachable h
  have hmem : (doc_id, d) ∈ s.store := dictGet_mem hd
  have hle : d.updated_at ≤ s.clock := (hi.2 (doc_id, d) hmem).2.1
  refine ⟨le_trans hle ht, ?_, rfl, rfl, rfl, ?_⟩
  · simp [update_document, hd]
  · simp [update_document, hd]

/-- Witness for C4 at the sample state, updating only the title at time
7. -/
theorem claim_C4_update_frame_witness :
    (dictGet sampleState.store 1 = some sampleDoc ∧
      sampleState.clock ≤ 7) ∧
    sampleDoc.updated_at ≤ 7 ∧
    update_document sampleState 1 ⟨some ['z'], none⟩ 7 =
      (Except.ok ({ sampleDoc with title := ['z'], updated_at := 7 } : Doc),
        ⟨dictSet sampleState.store 1
          { sampleDoc with title := ['z'], updated_at := 7 },
          sampleState.next_id, 7⟩) ∧
    ({ sampleDoc with title := ['z'], updated_at := 7 } : Doc).text =
      sampleDoc.text ∧
    ({ sampleDoc with title := ['z'], updated_at := 7 } : Doc).id =
      sampleDoc.id ∧
    ({ sampleDoc with title := ['z'], updated_at := 7 } : Doc).created_at =
      sampleDoc.created_at ∧
    update_document sampleState 1 ⟨none, none⟩ 7 =
      (Except.ok ({ sampleDoc with updated_at := 7 } : Doc),
        ⟨dictSet sampleState.store 1 { sampleDoc with updated_at := 7 },
          sampleState.next_id, 7⟩) :=
  ⟨⟨by decide, by decide⟩,
    claim_C4_update_frame sampleState_reachable 1 (by decide) 7 (by decide)
      ['z']⟩

/-- C5: deleting an id that is present succeeds; afterwards a get of that
id reports 404, a second delete of the same id reports 404, the id is no
longer a key of the store, and every other id maps to exactly what it
mapped to before (the delete removed exactly that document). -/
theorem claim_C5_delete_then_get (s : StoreState) (doc_id : Nat)
    (h : dictGet s.store doc_id ≠ none) :
    (delete_document s doc_id).1 = Except.ok () ∧
    get_document (delete_document s doc_id).2 doc_id = Except.error 404 ∧
    (delete_document (delete_document s doc_id).2 doc_id).1 =
      Except.error 404 ∧
    dictGet (delete_document s doc_id).2.store doc_id = none ∧
    ∀ j, j ≠ doc_id →
      dictGet (delete_document s doc_id).2.store j = dictGet s.store j := by
  have hany : s.store.any (fun p => p.1 == doc_id) = true := by
    by_contra hn
    exact h ((dictGet_none_iff_not_any _ _).mpr hn)
  rw [delete_document_mem s doc_id hany]
  have hgone :
      dictGet (s.store.filter (fun p => !(p.1 == doc_id))) doc_id = none :=
    dictGet_filter_self s.store doc_id
  have hnotany :
      ¬ (s.store.filter (fun p => !(p.1 == doc_id))).any
        (fun p => p.1 == doc_id) = true :=
    (dictGet_none_iff_not_any _ _).mp hgone
  refine ⟨rfl, ?_, ?_, hgone, ?_⟩
  · simp [get_document, hgone]
  · rw [delete_document_not_mem _ _ hnotany]
  · intro j hj
    exact dictGet_filter_ne s.store doc_id hj

/-- Witness for C5: delete the single document of the sample state. -/
theorem claim_C5_delete_then_get_witness :
    dictGet sampleState.store 1 ≠ none ∧
    (delete_document sampleState 1).1 = Except.ok () ∧
    get_document (delete_document sampleState 1).2 1 = Except.error 404 ∧
    (delete_document (delete_document sampleState 1).2 1).1 =
      Except.error 404 ∧
    dictGet (delete_document sampleState 1).2.store 1 = none :=
  have h : dictGet sampleState.store 1 ≠ none := by decide
  have hc := claim_C5_delete_then_get sampleState 1 h
  ⟨h, hc.1, hc.2.1, hc.2.2.1, hc.2.2.2.1⟩

/-- C6: segmentation splits on two consecutive newlines, trims each piece,
drops empty pieces and numbers the clauses 1..n in order; `"A\n\nB"`
yields exactly clauses (1, "A") and (2, "B"); when no piece survives, the
result is empty for a whitespace-only input and otherwise one clause
holding the whole trimmed input at index 1. -/
theorem claim_C6_segment :
    segment ['A', '\n', '\n', 'B'] =
      [⟨1, ['A'], none⟩, ⟨2, ['B'], none⟩] ∧
    (∀ s : Str, (segment s).map Clause.index =
      List.range' 1 (segment s).length) ∧
    (∀ s : Str, pyStrip s = [] → segment s = []) ∧
    (∀ s : Str,
      ((splitNlNl s).map pyStrip).filter (fun p => !p.isEmpty) = [] →
      segment s =
        if pyStrip s = [] then [] else [⟨1, pyStrip s, none⟩]) := by
  refine ⟨by decide, segment_map_index, segment_of_strip_nil, ?_⟩
  intro s hparts
  by_cases hstrip : pyStrip s = []
  · rw [if_pos hstrip]
    exact segment_of_strip_nil s hstrip
  · rw [if_neg hstrip]
    exact segment_fallback s hparts hstrip

/-- Witness for C6: exercises the concrete example, the index property,
and the empty-input edge case on concrete strings. -/
theorem claim_C6_segment_witness :
    segment ['A', '\n', '\n', 'B'] =
      [⟨1, ['A'], none⟩, ⟨2, ['B'], none⟩] ∧
    (segment ['A', '\n', '\n', 'B']).map Clause.index =
      List.range' 1 (segment ['A', '\n', '\n', 'B']).length ∧
    pyStrip [' ', '\t', '\n'] = [] ∧
    segment [' ', '\t', '\n'] = [] ∧
    ((splitNlNl ['\n', '\n']).map pyStrip).filter (fun p => !p.isEmpty)
      = [] ∧
    segment ['\n', '\n'] =
      (if pyStrip ['\n', '\n'] = [] then []
        else [⟨1, pyStrip ['\n', '\n'], none⟩]) :=
  ⟨claim_C6_segment.1,
    claim_C6_segment.2.1 ['A', '\n', '\n', 'B'],
    by decide,
    claim_C6_segment.2.2.1 [' ', '\t', '\n'] (by decide),
    by decide,
    claim_C6_segment.2.2.2 ['\n', '\n'] (by decide)⟩

/-- C7: for every clause sequence and every duplicate-similarity
threshold in [0.60, 0.98], the analyze stub returns an empty findings
sequence. -/
theorem claim_C7_analyze_empty (clauses : List Clause) (thr : ℚ)
    (h1 : mkRat 6 10 ≤ thr) (h2 : thr ≤ mkRat 98 100) :
    (analyze ⟨clauses, thr⟩).findings = [] := rfl

/-- Witness for C7 at the default threshold 0.85 and an empty clause
list. -/
theorem claim_C7_analyze_empty_witness :
    (mkRat 6 10 ≤ mkRat 85 100 ∧ mkRat 85 100 ≤ mkRat 98 100) ∧
    (analyze ⟨[], mkRat 85 100⟩).findings = [] :=
  ⟨⟨by decide, by decide⟩,
    claim_C7_analyze_empty [] (mkRat 85 100) (by decide) (by decide)⟩

/-- C8: an analyze request whose threshold lies outside [0.60, 0.98] is
rejected with a 422 validation error before the stub runs; an omitted
threshold defaults to 0.85, which passes validation and reaches the
stub. -/
theorem claim_C8_threshold_validation (clauses : List Clause) (thr : ℚ)
    (h : thr < mkRat 6 10 ∨ mkRat 98 100 < thr) :
    validate_AnalyzeRequest clauses (some thr) = Except.error 422 ∧
    api_analyze clauses (some thr) = Except.error 422 ∧
    validate_AnalyzeRequest clauses none =
      Except.ok ⟨clauses, mkRat 85 100⟩ ∧
    (mkRat 6 10 ≤ mkRat 85 100 ∧ mkRat 85 100 ≤ mkRat 98 100) ∧
    api_analyze clauses none = Except.ok ⟨[]⟩ := by
  have hout : ¬ (mkRat 6 10 ≤ thr ∧ thr ≤ mkRat 98 100) := by
    rcases h with h | h
    · exact fun hc => absurd hc.1 (not_le_of_lt h)
    · exact fun hc => absurd hc.2 (not_le_of_lt h)
  have hval : validate_AnalyzeRequest clauses (some thr) =
      Except.error 422 := by
    simp only [validate_AnalyzeRequest, Option.getD_some]
    rw [if_neg hout]
  have hdef : validate_AnalyzeRequest clauses none =
      Except.ok ⟨clauses, mkRat 85 100⟩ := by
    simp only [validate_AnalyzeRequest, Option.getD_none]
    rw [if_pos ⟨by decide, by decide⟩]
  refine ⟨hval, ?_, hdef, ⟨by decide, by decide⟩, ?_⟩
  · simp [api_analyze, hval]
  · simp [api_analyze, hdef, analyze]

/-- Witness for C8 with the out-of-range threshold 0.5. -/
theorem claim_C8_threshold_validation_witness :
    mkRat 1 2 < mkRat 6 10 ∧
    validate_AnalyzeRequest [] (some (mkRat 1 2)) = Except.error 422 ∧
    api_analyze [] (some (mkRat 1 2)) = Except.error 422 ∧
    validate_AnalyzeRequest [] none = Except.ok ⟨[], mkRat 85 100⟩ ∧
    api_analyze [] none = Except.ok ⟨[]⟩ :=
  have h : mkRat 1 2 < mkRat 6 10 := by decide
  have hc := claim_C8_threshold_validation [] (mkRat 1 2) (Or.inl h)
  ⟨h, hc.1, hc.2.1, hc.2.2.1, hc.2.2.2.2⟩

/-- C9: a create request whose title length falls outside [3, 200] or
whose text is empty is rejected with a 422 validation error at the
boundary, and the store state (mapping and next-id counter) is returned
unchanged — the store is never reached. -/
theorem claim_C9_create_validation (s : StoreState) (title text : Str)
    (h : ¬ (3 ≤ title.length ∧ title.length ≤ 200 ∧ 1 ≤ text.length))
    (t1 t2 : Nat) :
    api_create s title text t1 t2 = (Except.error 422, s) := by
  have hval : validate_DocumentCreate title text = Except.error 422 := by
    rw [validate_DocumentCreate, if_neg h]
  simp [api_create, hval]

/-- Witness for C9: a two-character title is rejected and the initial
state is left untouched. -/
theorem claim_C9_create_validation_witness :
    ¬ (3 ≤ (['a', 'b'] : Str).length ∧ (['a', 'b'] : Str).length ≤ 200 ∧
      1 ≤ (['x'] : Str).length) ∧
    api_create initState ['a', 'b'] ['x'] 0 0 =
      (Except.error 422, initState) :=
  ⟨by decide,
    claim_C9_create_validation initState ['a', 'b'] ['x'] (by decide) 0 0⟩

/-- C10: in every reachable state each stored id is strictly below the
next-id counter, so the counter value itself is never a key; hence
create appends a genuinely fresh entry and preserves every existing
binding (it never overwrites a document). -/
theorem claim_C10_fresh_ids {s : StoreState} (h : Reachable s) :
    (∀ p ∈ s.store, p.1 < s.next_id) ∧
    dictGet s.store s.next_id = none ∧
    (∀ (payload : DocumentCreate) (t1 t2 : Nat),
      (create_document s payload t1 t2).2.store =
        s.store ++ [(s.next_id, (create_document s payload t1 t2).1)]) ∧
    (∀ (payload : DocumentCreate) (t1 t2 : Nat) (j : Nat) (d : Doc),
      dictGet s.store j = some d →
      dictGet (create_document s payload t1 t2).2.store j = some d) := by
  have hi := inv_reachable h
  have hkeys : ∀ p ∈ s.store, p.1 < s.next_id := fun p hp => (hi.2 p hp).2.2
  have hnone : dictGet s.store s.next_id = none := by
    rw [dictGet_eq_none_iff]
    intro p hp
    exact Nat.ne_of_lt (hkeys p hp)
  have happend : ∀ (payload : DocumentCreate) (t1 t2 : Nat),
      (create_document s payload t1 t2).2.store =
        s.store ++ [(s.next_id, (create_document s payload t1 t2).1)] := by
    intro payload t1 t2
    exact dictSet_of_fresh _ (fun p hp => Nat.ne_of_lt (hkeys p hp))
  refine ⟨hkeys, hnone, happend, ?_⟩
  intro payload t1 t2 j d hj
  rw [happend payload t1 t2]
  have hjne : j ≠ s.next_id := by
    intro hcon
    rw [hcon, hnone] at hj
    cases hj
  rw [dictGet_append_ne s.store s.next_id _ hjne]
  exact hj

/-- Witness for C10 at the sample state: id 1 is stored, the counter is
2 and not a key, and a fresh create preserves the binding of id 1. -/
theorem claim_C10_fresh_ids_witness :
    dictGet sampleState.store sampleState.next_id = none ∧
    (create_document sampleState sampleCreate 3 4).2.store =
      sampleState.store ++
        [(sampleState.next_id, (create_document sampleState sampleCreate 3 4).1)] ∧
    dictGet sampleState.store 1 = some sampleDoc ∧
    dictGet (create_document sampleState sampleCreate 3 4).2.store 1 =
      some sampleDoc :=
  have hd : dictGet sampleState.store 1 = some sampleDoc := by decide
  ⟨(claim_C10_fresh_ids sampleState_reachable).2.1,
    (claim_C10_fresh_ids sampleState_reachable).2.2.1 sampleCreate 3 4,
    hd,
    (claim_C10_fresh_ids sampleState_reachable).2.2.2 sampleCreate 3 4 1
      sampleDoc hd⟩

end LegalSandbox
